import Mathlib

/-! go-dynamo-document-client: a shallow embedding of `client.go`.

The Go package wraps the DynamoDB item API.  The collaborator (the AWS SDK) is
not part of the repository, so it appears here as data: a `DynamoDBApi` value
holds one transition function per interface method, acting on an abstract
collaborator state `σ`.  Every call that a method of `DocumentClient` makes is
appended to a call log carried next to that state, so that statements about
"how many requests" and "which start key" can be made.

Conventions of the embedding

* a Go `error` is `Option GoError` (`none` is `nil`);
* a Go map `map[string]T` is `GoMap T = Option (List (String × T))`: `none` is
  the nil map, `some kvs` an allocated map with the entries `kvs`;
* a Go slice is a `List`; the nil slice and the empty slice are both `[]`
  (the code only ever takes `len` of a slice and appends to it);
* an SDK call `(out, err)` is an `Except GoError out`: the SDK returns a
  non-nil output exactly when the error is nil;
* `log.Println` is not modelled;
* the recursion of `query`/`scan` is not bounded by the code, so both take a
  fuel argument that bounds the recursion depth; a result `none` means that the
  bound was reached, and the world returned next to it holds the calls made up
  to that point.
-/

namespace DynamoDocumentClient

/-! ## Go values -/

/-- Go error value, identified by its message. -/
structure GoError where
  msg : String
deriving DecidableEq, Repr

/-- Go `errors.New`. -/
def errorsNew (s : String) : GoError := ⟨s⟩

/-- Go `map[string]T`; `none` is the nil map. -/
abbrev GoMap (T : Type) := Option (List (String × T))

/-- Go `len(m)` for a map: zero for the nil map. -/
def mapLen {T : Type} : GoMap T → Nat
  | none => 0
  | some kvs => kvs.length

/-- One stored item / key / continuation token: `map[string]types.AttributeValue`. -/
abbrev Item (AV : Type) := GoMap AV

/-! ## SDK request and response payloads (the fields `client.go` touches) -/

/-- The accessors of `expression.Expression` used by the client. -/
structure Expression (AV : Type) where
  Names : GoMap String
  Values : GoMap AV
  KeyCondition : Option String
  Filter : Option String
deriving DecidableEq, Repr

structure PutItemInput (AV : Type) where
  Item : Item AV
  TableName : String
deriving DecidableEq, Repr

structure PutItemOutput where
deriving DecidableEq, Repr

structure GetItemInput (AV : Type) where
  TableName : String
  Key : Item AV
deriving DecidableEq, Repr

structure GetItemOutput (AV : Type) where
  Item : Item AV
deriving DecidableEq, Repr

structure DeleteItemInput (AV : Type) where
  TableName : String
  Key : Item AV
deriving DecidableEq, Repr

structure DeleteItemOutput where
deriving DecidableEq, Repr

structure QueryInput (AV : Type) where
  TableName : String
  ExpressionAttributeNames : GoMap String
  ExpressionAttributeValues : GoMap AV
  KeyConditionExpression : Option String
  FilterExpression : Option String
  ExclusiveStartKey : Item AV
deriving DecidableEq, Repr

structure QueryOutput (AV : Type) where
  Items : List (Item AV)
  LastEvaluatedKey : Item AV
deriving DecidableEq, Repr

structure ScanInput (AV : Type) where
  TableName : String
  ExpressionAttributeNames : GoMap String
  ExpressionAttributeValues : GoMap AV
  FilterExpression : Option String
  ExclusiveStartKey : Item AV
deriving DecidableEq, Repr

structure ScanOutput (AV : Type) where
  Items : List (Item AV)
  LastEvaluatedKey : Item AV
deriving DecidableEq, Repr

/-! ## The collaborator -/

/-- Interface `DynamoDBApi`: one transition function per method, over the
collaborator state `σ`. -/
structure DynamoDBApi (σ AV : Type) where
  PutItem : σ → PutItemInput AV → Except GoError PutItemOutput × σ
  GetItem : σ → GetItemInput AV → Except GoError (GetItemOutput AV) × σ
  Scan : σ → ScanInput AV → Except GoError (ScanOutput AV) × σ
  DeleteItem : σ → DeleteItemInput AV → Except GoError DeleteItemOutput × σ
  Query : σ → QueryInput AV → Except GoError (QueryOutput AV) × σ

/-- Struct `DocumentClient`; `Api` is the type of the `db` field. -/
structure DocumentClient (Api : Type) where
  table : String
  db : Api

/-- A reflect.Kind. -/
inductive Kind where
  | Invalid | Bool | Int | Int8 | Int16 | Int32 | Int64
  | Uint | Uint8 | Uint16 | Uint32 | Uint64 | Uintptr
  | Float32 | Float64 | Complex64 | Complex128
  | Array | Chan | Func | Interface | Map | Ptr | Slice | String | Struct
  | UnsafePointer
deriving DecidableEq, Repr

/-- What `Get` sees of its `interface{}` argument: `reflect.ValueOf(t).Kind()`
(`Invalid` for the untyped nil) and, for a pointer, the memory cell it refers to
(`none` for a nil pointer and for every non-pointer). -/
structure Target where
  kind : Kind
  cell : Option Nat
deriving DecidableEq, Repr

/-- One observable call made by the client. -/
inductive Call (AV : Type) where
  | PutItem (q : PutItemInput AV)
  | GetItem (q : GetItemInput AV)
  | Scan (q : ScanInput AV)
  | DeleteItem (q : DeleteItemInput AV)
  | Query (q : QueryInput AV)
  | UnmarshalMap (item : Item AV) (t : Target)
deriving DecidableEq, Repr

/-- The collaborator state together with the log of calls made so far. -/
structure World (σ AV : Type) where
  api : σ
  calls : List (Call AV)
deriving DecidableEq, Repr

/-- What `query` and `scan` return: the aggregated records and the error. -/
abbrev Ret (AV : Type) := List (Item AV) × Option GoError

variable {σ AV : Type}

/-! ## `query` and `scan` -/

/-- Method `DocumentClient.query` (client.go 115-150). -/
def DocumentClient.query (r : DocumentClient (DynamoDBApi σ AV)) :
    Nat → World σ AV → Expression AV → Item AV → Option (Ret AV) × World σ AV
  | 0, w, _, _ => (none, w)
  | fuel + 1, w, e, lastKey =>
    let q0 : QueryInput AV :=
      { TableName := r.table
        ExpressionAttributeNames := e.Names
        ExpressionAttributeValues := e.Values
        KeyConditionExpression := e.KeyCondition
        FilterExpression := e.Filter
        ExclusiveStartKey := none }
    let q : QueryInput AV :=
      if lastKey.isSome then { q0 with ExclusiveStartKey := lastKey } else q0
    let out := r.db.Query w.api q
    let w1 : World σ AV := { api := out.2, calls := w.calls ++ [Call.Query q] }
    match out.1 with
    | .error err => (some ([], some err), w1)
    | .ok resp =>
      -- past the check of line 129 the variable `err` holds nil
      let err : Option GoError := none
      let lk := resp.LastEvaluatedKey
      let agg : List (Item AV) := if resp.Items.length > 0 then [] ++ resp.Items else []
      if mapLen lk > 0 then
        match r.query fuel w1 e lk with
        | (none, w2) => (none, w2)
        | (some (a, ee), w2) =>
          if ee.isSome then (some ([], err), w2)
          else (some (agg ++ a, none), w2)
      else (some (agg, none), w1)

/-- Method `DocumentClient.scan` (client.go 152-186). -/
def DocumentClient.scan (r : DocumentClient (DynamoDBApi σ AV)) :
    Nat → World σ AV → Expression AV → Item AV → Option (Ret AV) × World σ AV
  | 0, w, _, _ => (none, w)
  | fuel + 1, w, e, lastKey =>
    let q0 : ScanInput AV :=
      { TableName := r.table
        ExpressionAttributeNames := e.Names
        ExpressionAttributeValues := e.Values
        FilterExpression := e.Filter
        ExclusiveStartKey := none }
    let q : ScanInput AV :=
      if lastKey.isSome then { q0 with ExclusiveStartKey := lastKey } else q0
    let out := r.db.Scan w.api q
    let w1 : World σ AV := { api := out.2, calls := w.calls ++ [Call.Scan q] }
    match out.1 with
    | .error err => (some ([], some err), w1)
    | .ok resp =>
      -- past the check of line 165 the variable `err` holds nil
      let err : Option GoError := none
      let lk := resp.LastEvaluatedKey
      let agg : List (Item AV) := if resp.Items.length > 0 then [] ++ resp.Items else []
      if mapLen lk > 0 then
        match r.scan fuel w1 e lk with
        | (none, w2) => (none, w2)
        | (some (a, ee), w2) =>
          if ee.isSome then (some ([], err), w2)
          else (some (agg ++ a, none), w2)
      else (some (agg, none), w1)

/-- Method `DocumentClient.Scan` (client.go 107-109). -/
def DocumentClient.Scan (r : DocumentClient (DynamoDBApi σ AV))
    (fuel : Nat) (w : World σ AV) (e : Expression AV) : Option (Ret AV) × World σ AV :=
  r.scan fuel w e none

/-- Method `DocumentClient.Query` (client.go 111-113). -/
def DocumentClient.Query (r : DocumentClient (DynamoDBApi σ AV))
    (fuel : Nat) (w : World σ AV) (e : Expression AV) : Option (Ret AV) × World σ AV :=
  r.query fuel w e none

/-! ## `Get`, `Put`, `Delete` -/

/-- The marshal/unmarshal facility of package `attributevalue`, over native
values `V`.  `UnmarshalMap` may write through a pointer target, so it acts on
the memory `Nat → V` that pointer targets refer to. -/
structure AttributeValueCodec (AV V : Type) where
  MarshalMap : V → Except GoError (Item AV)
  UnmarshalMap : Item AV → Target → (Nat → V) → Option GoError × (Nat → V)

/-- Method `DocumentClient.Get` (client.go 63-82). -/
def DocumentClient.Get {V : Type} (codec : AttributeValueCodec AV V)
    (r : DocumentClient (DynamoDBApi σ AV)) (w : World σ AV) (mem : Nat → V)
    (key : Item AV) (t : Target) : Option GoError × World σ AV × (Nat → V) :=
  if t.kind ≠ Kind.Ptr then
    (some (errorsNew "target is not a pointer"), w, mem)
  else
    let q : GetItemInput AV := { TableName := r.table, Key := key }
    let out := r.db.GetItem w.api q
    let w1 : World σ AV := { api := out.2, calls := w.calls ++ [Call.GetItem q] }
    match out.1 with
    | .error err => (some err, w1, mem)
    | .ok resp =>
      if resp.Item.isNone then
        (some (errorsNew "item not found"), w1, mem)
      else
        let dec := codec.UnmarshalMap resp.Item t mem
        let w2 : World σ AV := { w1 with calls := w1.calls ++ [Call.UnmarshalMap resp.Item t] }
        match dec.1 with
        | some err => (some err, w2, dec.2)
        | none => (none, w2, dec.2)

/-- Method `DocumentClient.Put` (client.go 84-97). -/
def DocumentClient.Put {V : Type} (codec : AttributeValueCodec AV V)
    (r : DocumentClient (DynamoDBApi σ AV)) (w : World σ AV) (v : V) :
    Option GoError × World σ AV :=
  match codec.MarshalMap v with
  | .error err => (some err, w)
  | .ok item =>
    let q : PutItemInput AV := { Item := item, TableName := r.table }
    let out := r.db.PutItem w.api q
    let w1 : World σ AV := { api := out.2, calls := w.calls ++ [Call.PutItem q] }
    match out.1 with
    | .error err => (some err, w1)
    | .ok _ => (none, w1)

/-- Method `DocumentClient.Delete` (client.go 99-105). -/
def DocumentClient.Delete (r : DocumentClient (DynamoDBApi σ AV)) (w : World σ AV)
    (key : Item AV) : Option GoError × World σ AV :=
  let q : DeleteItemInput AV := { TableName := r.table, Key := key }
  let out := r.db.DeleteItem w.api q
  let w1 : World σ AV := { api := out.2, calls := w.calls ++ [Call.DeleteItem q] }
  match out.1 with
  | .error err => (some err, w1)
  | .ok _ => (none, w1)

/-! ## `NewClient` and the package-level variable `db` -/

/-- Struct `Options`: the two hooks, kept abstract. -/
structure Options (D H : Type) where
  DB : D
  Config : H

/-- The two SDK constructors `initDb` calls: `config.LoadDefaultConfig` (given
the config hook) and `dynamodb.NewFromConfig` (given the client-options hook). -/
structure Sdk (D H Cfg Api : Type) where
  LoadDefaultConfig : H → Except GoError Cfg
  NewFromConfig : Cfg → D → Api

/-- The package-level state.  `db` is the variable `db *DocumentClient` (a
pointer is an index into `heap`, `none` is nil), `heap` the `DocumentClient`
values allocated so far, `loads` the log of configuration resolutions (the hook
each `LoadDefaultConfig` call received). -/
structure Globals (Api H : Type) where
  db : Option Nat
  heap : List (DocumentClient Api)
  loads : List H

/-- The package state at program start: `db` is nil. -/
def Globals.start {Api H : Type} : Globals Api H := { db := none, heap := [], loads := [] }

/-- How a call ends: it returns a value, or it panics with an error value. -/
inductive Outcome (α : Type) where
  | ret (a : α)
  | panicked (err : GoError)
deriving DecidableEq, Repr

/-- Function `initDb` (client.go 50-61). -/
def initDb {D H Cfg Api : Type} (sdk : Sdk D H Cfg Api) (g : Globals Api H)
    (table : String) (opt : Options D H) : Outcome (Option Nat) × Globals Api H :=
  let g1 : Globals Api H := { g with loads := g.loads ++ [opt.Config] }
  match sdk.LoadDefaultConfig opt.Config with
  | .error err => (Outcome.panicked err, g1)
  | .ok cfg =>
    let client := sdk.NewFromConfig cfg opt.DB
    (Outcome.ret (some g1.heap.length),
      { g1 with heap := g1.heap ++ [{ table := table, db := client }] })

/-- Function `NewClient` (client.go 34-43).  The mutex is acquired on entry and
released on every exit; in this sequential model it has no effect. -/
def NewClient {D H Cfg Api : Type} (sdk : Sdk D H Cfg Api) (g : Globals Api H)
    (table : String) (opt : Options D H) : Outcome (Option Nat) × Globals Api H :=
  if g.db.isNone then
    match initDb sdk g table opt with
    | (Outcome.panicked err, g1) => (Outcome.panicked err, g1)
    | (Outcome.ret p, g1) =>
      let g2 : Globals Api H := { g1 with db := p }
      (Outcome.ret g2.db, g2)
  else
    (Outcome.ret g.db, g)

/-- The result of a sequence of `NewClient` calls: how each call ended, in call
order, and the final package state. -/
structure Run (Api H : Type) where
  outcomes : List (Outcome (Option Nat))
  final : Globals Api H

/-- A caller making `NewClient` calls one after the other.  A call that panics
leaves the package state as `NewClient` left it (the deferred unlock has
released the mutex); the caller recovers and makes the next call.  A process
that a panic ends makes a prefix of such a sequence. -/
def newClients {D H Cfg Api : Type} (sdk : Sdk D H Cfg Api) :
    Globals Api H → List (String × Options D H) → Run Api H
  | g, [] => { outcomes := [], final := g }
  | g, (table, opt) :: rest =>
    let out := NewClient sdk g table opt
    let run := newClients sdk out.2 rest
    { run with outcomes := out.1 :: run.outcomes }

/-! ## Vocabulary for the pagination statements -/

/-- One page of a read: what both `QueryOutput` and `ScanOutput` carry. -/
structure Page (AV : Type) where
  Items : List (Item AV)
  LastEvaluatedKey : Item AV
deriving DecidableEq, Repr

/-- The request `query` sends for start key `lastKey`. -/
def DocumentClient.queryInput (r : DocumentClient (DynamoDBApi σ AV)) (e : Expression AV)
    (lastKey : Item AV) : QueryInput AV :=
  { TableName := r.table
    ExpressionAttributeNames := e.Names
    ExpressionAttributeValues := e.Values
    KeyConditionExpression := e.KeyCondition
    FilterExpression := e.Filter
    ExclusiveStartKey := lastKey }

/-- The request `scan` sends for start key `lastKey`. -/
def DocumentClient.scanInput (r : DocumentClient (DynamoDBApi σ AV)) (e : Expression AV)
    (lastKey : Item AV) : ScanInput AV :=
  { TableName := r.table
    ExpressionAttributeNames := e.Names
    ExpressionAttributeValues := e.Values
    FilterExpression := e.Filter
    ExclusiveStartKey := lastKey }

/-- The collaborator's answer to the query request for a start key, as a page. -/
def DocumentClient.queryFetch (r : DocumentClient (DynamoDBApi σ AV)) (e : Expression AV)
    (s : σ) (lastKey : Item AV) : Except GoError (Page AV) × σ :=
  let out := r.db.Query s (r.queryInput e lastKey)
  (match out.1 with
    | .error err => .error err
    | .ok resp => .ok { Items := resp.Items, LastEvaluatedKey := resp.LastEvaluatedKey },
   out.2)

/-- The collaborator's answer to the scan request for a start key, as a page. -/
def DocumentClient.scanFetch (r : DocumentClient (DynamoDBApi σ AV)) (e : Expression AV)
    (s : σ) (lastKey : Item AV) : Except GoError (Page AV) × σ :=
  let out := r.db.Scan s (r.scanInput e lastKey)
  (match out.1 with
    | .error err => .error err
    | .ok resp => .ok { Items := resp.Items, LastEvaluatedKey := resp.LastEvaluatedKey },
   out.2)

/-- The common shape of `query` and `scan`: fetch a page for the start key,
keep its items, follow a non-empty token.  Used only to state and prove facts
about both methods once; `query_eq_aggregate` and `scan_eq_aggregate` relate it
to the two embedded methods. -/
def aggregate (fetch : σ → Item AV → Except GoError (Page AV) × σ)
    (req : Item AV → Call AV) :
    Nat → World σ AV → Item AV → Option (Ret AV) × World σ AV
  | 0, w, _ => (none, w)
  | fuel + 1, w, lastKey =>
    let out := fetch w.api lastKey
    let w1 : World σ AV := { api := out.2, calls := w.calls ++ [req lastKey] }
    match out.1 with
    | .error err => (some ([], some err), w1)
    | .ok p =>
      if mapLen p.LastEvaluatedKey > 0 then
        match aggregate fetch req fuel w1 p.LastEvaluatedKey with
        | (none, w2) => (none, w2)
        | (some (a, ee), w2) =>
          if ee.isSome then (some ([], none), w2)
          else (some (p.Items ++ a, none), w2)
      else (some (p.Items, none), w1)

/-- The collaborator, started in state `s`, serves a read across the pages
`pages`: it answers the request with start key `lastKey` with the first page,
the request whose start key is a page's token with the next page, every page
but the last carries a non-empty token, the last carries none (nil or no
key-fields), and no request fails. -/
def Serves (fetch : σ → Item AV → Except GoError (Page AV) × σ) :
    σ → Item AV → List (Page AV) → Prop
  | _, _, [] => False
  | s, lastKey, [p] => (fetch s lastKey).1 = .ok p ∧ mapLen p.LastEvaluatedKey = 0
  | s, lastKey, p :: q :: rest =>
    (fetch s lastKey).1 = .ok p ∧ 0 < mapLen p.LastEvaluatedKey ∧
      Serves fetch (fetch s lastKey).2 p.LastEvaluatedKey (q :: rest)

/-- The collaborator, started in state `s`, serves the pages `pre`, each with a
non-empty token, and then fails the next request with `E`. -/
def ServesThenFails (fetch : σ → Item AV → Except GoError (Page AV) × σ) (E : GoError) :
    σ → Item AV → List (Page AV) → Prop
  | s, lastKey, [] => (fetch s lastKey).1 = .error E
  | s, lastKey, p :: rest =>
    (fetch s lastKey).1 = .ok p ∧ 0 < mapLen p.LastEvaluatedKey ∧
      ServesThenFails fetch E (fetch s lastKey).2 p.LastEvaluatedKey rest

/-- The start keys of the requests that fetch `pages` one after the other,
beginning with start key `lastKey`: `lastKey`, then each page's token but the
last page's. -/
def startKeys : Item AV → List (Page AV) → List (Item AV)
  | _, [] => []
  | lastKey, p :: rest => lastKey :: startKeys p.LastEvaluatedKey rest

/-- All records of the pages, in page order. -/
def allItems (pages : List (Page AV)) : List (Item AV) :=
  (pages.map (fun p => p.Items)).flatten

/-- A query request with the key condition left out: the scan request with
the same remaining fields. -/
def QueryInput.dropKeyCondition (q : QueryInput AV) : ScanInput AV :=
  { TableName := q.TableName
    ExpressionAttributeNames := q.ExpressionAttributeNames
    ExpressionAttributeValues := q.ExpressionAttributeValues
    FilterExpression := q.FilterExpression
    ExclusiveStartKey := q.ExclusiveStartKey }

/-- What the aggregation returns when the request after the pages `pre` fails
with `E`: the error itself when `pre` is empty; otherwise the records of all of
`pre` but its last page, and a nil error. -/
def failResult (E : GoError) : List (Page AV) → Ret AV
  | [] => ([], some E)
  | p :: rest => (allItems (p :: rest).dropLast, none)

/-- The collaborator, started in state `s`, answers the request with start key
`lastKey` with the first page and the request whose start key is a page's token
with the next page; every page but the last carries a non-empty token, and
nothing is said about the token of the last page. -/
def Answers (fetch : σ → Item AV → Except GoError (Page AV) × σ) :
    σ → Item AV → List (Page AV) → Prop
  | _, _, [] => True
  | s, lastKey, [p] => (fetch s lastKey).1 = .ok p
  | s, lastKey, p :: q :: rest =>
    (fetch s lastKey).1 = .ok p ∧ 0 < mapLen p.LastEvaluatedKey ∧
      Answers fetch (fetch s lastKey).2 p.LastEvaluatedKey (q :: rest)

/-- The two paginated reads. -/
inductive ReadOp where
  | query
  | scan
deriving DecidableEq, Repr

/-- The exported method of a read: `Query` or `Scan`. -/
def DocumentClient.read (r : DocumentClient (DynamoDBApi σ AV)) :
    ReadOp → Nat → World σ AV → Expression AV → Option (Ret AV) × World σ AV
  | ReadOp.query => r.Query
  | ReadOp.scan => r.Scan

/-- The recursive method of a read: `query` or `scan`. -/
def DocumentClient.readAt (r : DocumentClient (DynamoDBApi σ AV)) :
    ReadOp → Nat → World σ AV → Expression AV → Item AV → Option (Ret AV) × World σ AV
  | ReadOp.query => r.query
  | ReadOp.scan => r.scan

/-- The collaborator operation a read calls, as a page source. -/
def DocumentClient.fetch (r : DocumentClient (DynamoDBApi σ AV)) (e : Expression AV) :
    ReadOp → σ → Item AV → Except GoError (Page AV) × σ
  | ReadOp.query => r.queryFetch e
  | ReadOp.scan => r.scanFetch e

/-- The call a read logs for a start key. -/
def DocumentClient.request (r : DocumentClient (DynamoDBApi σ AV)) (e : Expression AV) :
    ReadOp → Item AV → Call AV
  | ReadOp.query => fun k => Call.Query (r.queryInput e k)
  | ReadOp.scan => fun k => Call.Scan (r.scanInput e k)

/-! ## Concrete collaborators, for evaluating the definitions -/

/-- A collaborator that answers `Query` and `Scan` from a table of
(start key, answer) pairs, fails start keys that are not listed, holds no
items, and counts the requests it received. -/
def scriptedApi (script : List (Item Nat × Except GoError (Page Nat))) : DynamoDBApi Nat Nat where
  PutItem := fun n _ => (.ok {}, n + 1)
  GetItem := fun n _ => (.ok { Item := none }, n + 1)
  DeleteItem := fun n _ => (.ok {}, n + 1)
  Query := fun n q =>
    (match script.lookup q.ExclusiveStartKey with
      | some (.ok p) => .ok { Items := p.Items, LastEvaluatedKey := p.LastEvaluatedKey }
      | some (.error err) => .error err
      | none => .error (errorsNew "ValidationException"),
     n + 1)
  Scan := fun n q =>
    (match script.lookup q.ExclusiveStartKey with
      | some (.ok p) => .ok { Items := p.Items, LastEvaluatedKey := p.LastEvaluatedKey }
      | some (.error err) => .error err
      | none => .error (errorsNew "ValidationException"),
     n + 1)

/-- A first page: two records and a token. -/
def pageA : Page Nat :=
  { Items := [some [("id", 10)], some [("id", 11)]], LastEvaluatedKey := some [("id", 11)] }

/-- A page in the middle: no record, and a token. -/
def pageB : Page Nat := { Items := [], LastEvaluatedKey := some [("id", 12)] }

/-- A last page: one record and no token. -/
def pageC : Page Nat := { Items := [some [("id", 13)]], LastEvaluatedKey := none }

/-- The three pages `pageA`, `pageB`, `pageC`, each filed under the start key
that leads to it. -/
def threePages : List (Item Nat × Except GoError (Page Nat)) :=
  [ (none, .ok pageA),
    (pageA.LastEvaluatedKey, .ok pageB),
    (pageB.LastEvaluatedKey, .ok pageC) ]

/-- One page with a token; the request for the second page fails. -/
def secondPageFails : List (Item Nat × Except GoError (Page Nat)) :=
  [ (none, .ok { Items := [some [("id", 10)]], LastEvaluatedKey := some [("id", 10)] }),
    (some [("id", 10)], .error (errorsNew "ProvisionedThroughputExceededException")) ]

/-- Two pages with tokens; the request for the third page fails. -/
def thirdPageFails : List (Item Nat × Except GoError (Page Nat)) :=
  [ (none, .ok { Items := [some [("id", 10)]], LastEvaluatedKey := some [("id", 10)] }),
    (some [("id", 10)],
      .ok { Items := [some [("id", 11)]], LastEvaluatedKey := some [("id", 11)] }),
    (some [("id", 11)], .error (errorsNew "ProvisionedThroughputExceededException")) ]

/-- The very first request fails. -/
def firstPageFails : List (Item Nat × Except GoError (Page Nat)) :=
  [ (none, .error (errorsNew "ResourceNotFoundException")) ]

/-- A client of table "Widgets" over a scripted collaborator. -/
def widgets (script : List (Item Nat × Except GoError (Page Nat))) :
    DocumentClient (DynamoDBApi Nat Nat) :=
  { table := "Widgets", db := scriptedApi script }

/-- An expression with a key condition and no filter. -/
def someExpr : Expression Nat :=
  { Names := some [("#0", "id")], Values := some [(":0", 7)],
    KeyCondition := some "#0 = :0", Filter := none }

/-- A fresh world: the collaborator has served nothing, no call is logged. -/
def world0 : World Nat Nat := { api := 0, calls := [] }

/-- A codec over natural numbers: a value is stored under the attribute "v";
decoding writes the number of attributes into the target cell. -/
def natCodec : AttributeValueCodec Nat Nat where
  MarshalMap := fun v => .ok (some [("v", v)])
  UnmarshalMap := fun item t mem =>
    match t.cell with
    | none => (some (errorsNew "InvalidUnmarshalError"), mem)
    | some c => (none, fun a => if a = c then mapLen item else mem a)

/-- An SDK whose configuration resolution fails for hook 0 and succeeds
otherwise. -/
def natSdk : Sdk Nat Nat Nat Nat where
  LoadDefaultConfig := fun h => if h = 0 then .error (errorsNew "no region") else .ok h
  NewFromConfig := fun cfg d => cfg + d

/-! ## Both methods are instances of `aggregate` -/

theorem queryInput_eq (r : DocumentClient (DynamoDBApi σ AV)) (e : Expression AV)
    (lastKey : Item AV) :
    (if lastKey.isSome then
        { TableName := r.table
          ExpressionAttributeNames := e.Names
          ExpressionAttributeValues := e.Values
          KeyConditionExpression := e.KeyCondition
          FilterExpression := e.Filter
          ExclusiveStartKey := lastKey }
      else
        { TableName := r.table
          ExpressionAttributeNames := e.Names
          ExpressionAttributeValues := e.Values
          KeyConditionExpression := e.KeyCondition
          FilterExpression := e.Filter
          ExclusiveStartKey := none } : QueryInput AV) = r.queryInput e lastKey := by
  cases lastKey <;> rfl

theorem scanInput_eq (r : DocumentClient (DynamoDBApi σ AV)) (e : Expression AV)
    (lastKey : Item AV) :
    (if lastKey.isSome then
        { TableName := r.table
          ExpressionAttributeNames := e.Names
          ExpressionAttributeValues := e.Values
          FilterExpression := e.Filter
          ExclusiveStartKey := lastKey }
      else
        { TableName := r.table
          ExpressionAttributeNames := e.Names
          ExpressionAttributeValues := e.Values
          FilterExpression := e.Filter
          ExclusiveStartKey := none } : ScanInput AV) = r.scanInput e lastKey := by
  cases lastKey <;> rfl

theorem query_eq_aggregate (r : DocumentClient (DynamoDBApi σ AV)) (e : Expression AV) :
    ∀ (fuel : Nat) (w : World σ AV) (lastKey : Item AV),
      r.query fuel w e lastKey
        = aggregate (r.queryFetch e) (fun k => Call.Query (r.queryInput e k)) fuel w lastKey := by
  intro fuel
  induction fuel with
  | zero => intro w lastKey; rfl
  | succ n ih =>
    intro w lastKey
    simp only [DocumentClient.query, aggregate, DocumentClient.queryFetch, queryInput_eq]
    cases h : (r.db.Query w.api (r.queryInput e lastKey)).1 with
    | error err => rfl
    | ok resp =>
      simp only [ih]
      by_cases hl : resp.Items.length > 0 <;> simp [hl]
      simp at hl
      simp [hl]

theorem scan_eq_aggregate (r : DocumentClient (DynamoDBApi σ AV)) (e : Expression AV) :
    ∀ (fuel : Nat) (w : World σ AV) (lastKey : Item AV),
      r.scan fuel w e lastKey
        = aggregate (r.scanFetch e) (fun k => Call.Scan (r.scanInput e k)) fuel w lastKey := by
  intro fuel
  induction fuel with
  | zero => intro w lastKey; rfl
  | succ n ih =>
    intro w lastKey
    simp only [DocumentClient.scan, aggregate, DocumentClient.scanFetch, scanInput_eq]
    cases h : (r.db.Scan w.api (r.scanInput e lastKey)).1 with
    | error err => rfl
    | ok resp =>
      simp only [ih]
      by_cases hl : resp.Items.length > 0 <;> simp [hl]
      simp at hl
      simp [hl]

theorem readAt_eq_aggregate (r : DocumentClient (DynamoDBApi σ AV)) (op : ReadOp)
    (e : Expression AV) (fuel : Nat) (w : World σ AV) (lastKey : Item AV) :
    r.readAt op fuel w e lastKey = aggregate (r.fetch e op) (r.request e op) fuel w lastKey := by
  cases op
  · exact query_eq_aggregate r e fuel w lastKey
  · exact scan_eq_aggregate r e fuel w lastKey

theorem read_eq_aggregate (r : DocumentClient (DynamoDBApi σ AV)) (op : ReadOp)
    (e : Expression AV) (fuel : Nat) (w : World σ AV) :
    r.read op fuel w e = aggregate (r.fetch e op) (r.request e op) fuel w none := by
  cases op
  · exact query_eq_aggregate r e fuel w none
  · exact scan_eq_aggregate r e fuel w none

/-! ## Facts about `aggregate` -/

theorem allItems_cons (p : Page AV) (rest : List (Page AV)) :
    allItems (p :: rest) = p.Items ++ allItems rest := by
  simp [allItems]

theorem allItems_append (xs ys : List (Page AV)) :
    allItems (xs ++ ys) = allItems xs ++ allItems ys := by
  simp [allItems]

theorem startKeys_length (lastKey : Item AV) (pages : List (Page AV)) :
    (startKeys lastKey pages).length = pages.length := by
  induction pages generalizing lastKey with
  | nil => rfl
  | cons p rest ih => simp [startKeys, ih]

/-- When the pages are served, enough fuel gives all their records, no error,
and one request per page. -/
theorem aggregate_serves (fetch : σ → Item AV → Except GoError (Page AV) × σ)
    (req : Item AV → Call AV) :
    ∀ (pages : List (Page AV)) (w : World σ AV) (lastKey : Item AV) (fuel : Nat),
      Serves fetch w.api lastKey pages → pages.length ≤ fuel →
      ∃ s, aggregate fetch req fuel w lastKey
        = (some (allItems pages, none),
            { api := s, calls := w.calls ++ (startKeys lastKey pages).map req }) := by
  intro pages
  induction pages with
  | nil => intro w lastKey fuel h; exact absurd h (by simp [Serves])
  | cons p rest ih =>
    intro w lastKey fuel h hf
    cases fuel with
    | zero => simp at hf
    | succ n =>
      cases rest with
      | nil =>
        obtain ⟨h1, h2⟩ := h
        refine ⟨(fetch w.api lastKey).2, ?_⟩
        simp [aggregate, h1, h2, allItems, startKeys]
      | cons q rest =>
        obtain ⟨h1, h2, h3⟩ := h
        have hn : (q :: rest).length ≤ n := by simpa using hf
        obtain ⟨s, hs⟩ := ih
          { api := (fetch w.api lastKey).2, calls := w.calls ++ [req lastKey] }
          p.LastEvaluatedKey n h3 hn
        refine ⟨s, ?_⟩
        simp only [aggregate, h1, h2, if_true, hs]
        simp [allItems_cons, startKeys]

/-- When the request after the pages `pre` fails, enough fuel gives
`failResult`, after one request per page and the failing one. -/
theorem aggregate_fails (fetch : σ → Item AV → Except GoError (Page AV) × σ)
    (req : Item AV → Call AV) (E : GoError) :
    ∀ (pre : List (Page AV)) (w : World σ AV) (lastKey : Item AV) (fuel : Nat),
      ServesThenFails fetch E w.api lastKey pre → pre.length + 1 ≤ fuel →
      ∃ s, aggregate fetch req fuel w lastKey
        = (some (failResult E pre),
            { api := s,
              calls := w.calls ++
                (lastKey :: pre.map (fun p => p.LastEvaluatedKey)).map req }) := by
  intro pre
  induction pre with
  | nil =>
    intro w lastKey fuel h hf
    cases fuel with
    | zero => simp at hf
    | succ n =>
      refine ⟨(fetch w.api lastKey).2, ?_⟩
      simp only [ServesThenFails] at h
      simp [aggregate, h, failResult]
  | cons p rest ih =>
    intro w lastKey fuel h hf
    cases fuel with
    | zero => simp at hf
    | succ n =>
      obtain ⟨h1, h2, h3⟩ := h
      have hn : rest.length + 1 ≤ n := by simpa using hf
      obtain ⟨s, hs⟩ := ih
        { api := (fetch w.api lastKey).2, calls := w.calls ++ [req lastKey] }
        p.LastEvaluatedKey n h3 hn
      refine ⟨s, ?_⟩
      simp only [aggregate, h1, h2, if_true, hs]
      cases rest with
      | nil => simp [failResult, allItems]
      | cons q rest => simp [failResult, allItems_cons]

/-- When the request after one or more served pages fails, either read returns
a nil error, together with the records of all served pages but the last. -/
theorem readAt_later_page_error (r : DocumentClient (DynamoDBApi σ AV)) (op : ReadOp)
    (e : Expression AV) (w : World σ AV) (lastKey : Item AV) (E : GoError)
    (p : Page AV) (rest : List (Page AV)) (fuel : Nat)
    (h : ServesThenFails (r.fetch e op) E w.api lastKey (p :: rest))
    (hf : rest.length + 2 ≤ fuel) :
    (r.readAt op fuel w e lastKey).1 = some (allItems (p :: rest).dropLast, none) := by
  obtain ⟨s, hs⟩ := aggregate_fails (r.fetch e op) (r.request e op) E (p :: rest) w lastKey
    fuel h (by simpa using hf)
  rw [readAt_eq_aggregate, hs]
  rfl

/-- A page without a token at the end of answered pages: the pages are served. -/
theorem serves_of_answers (fetch : σ → Item AV → Except GoError (Page AV) × σ) :
    ∀ (pre : List (Page AV)) (p : Page AV) (s : σ) (lastKey : Item AV),
      Answers fetch s lastKey (pre ++ [p]) → mapLen p.LastEvaluatedKey = 0 →
      Serves fetch s lastKey (pre ++ [p]) := by
  intro pre
  induction pre with
  | nil => intro p s lastKey h h0; exact ⟨h, h0⟩
  | cons q rest ih =>
    intro p s lastKey h h0
    cases hr : rest ++ [p] with
    | nil => simp at hr
    | cons x xs =>
      have h' : Answers fetch s lastKey (q :: x :: xs) := by
        simpa [hr] using h
      obtain ⟨h1, h2, h3⟩ := h'
      have h4 : Serves fetch (fetch s lastKey).2 q.LastEvaluatedKey (rest ++ [p]) :=
        ih p _ _ (by rw [hr]; exact h3) h0
      show Serves fetch s lastKey (q :: (rest ++ [p]))
      rw [hr] at h4 ⊢
      exact ⟨h1, h2, h4⟩

/-- The first thing an invocation with fuel does is to send the request for
its start key. -/
theorem aggregate_first_call (fetch : σ → Item AV → Except GoError (Page AV) × σ)
    (req : Item AV → Call AV) :
    ∀ (fuel : Nat) (w : World σ AV) (lastKey : Item AV),
      ∃ extra, (aggregate fetch req (fuel + 1) w lastKey).2.calls
        = w.calls ++ req lastKey :: extra := by
  intro fuel
  induction fuel with
  | zero =>
    intro w lastKey
    refine ⟨[], ?_⟩
    simp only [aggregate]
    cases (fetch w.api lastKey).1 with
    | error err => rfl
    | ok p => by_cases h : mapLen p.LastEvaluatedKey > 0 <;> simp [h]
  | succ n ih =>
    intro w lastKey
    rw [aggregate]
    cases h1 : (fetch w.api lastKey).1 with
    | error err => exact ⟨[], rfl⟩
    | ok p =>
      by_cases h : mapLen p.LastEvaluatedKey > 0
      · obtain ⟨extra, hx⟩ := ih
          { api := (fetch w.api lastKey).2, calls := w.calls ++ [req lastKey] }
          p.LastEvaluatedKey
        refine ⟨req p.LastEvaluatedKey :: extra, ?_⟩
        simp only [h, if_true]
        generalize aggregate fetch req (n + 1)
          { api := (fetch w.api lastKey).2, calls := w.calls ++ [req lastKey] }
          p.LastEvaluatedKey = res at hx
        obtain ⟨o, w2⟩ := res
        cases o with
        | none => simpa using hx
        | some x =>
          obtain ⟨a, ee⟩ := x
          cases ee <;> simpa using hx
      · exact ⟨[], by simp [h]⟩

/-- After a page with a non-empty token the world returned is the one the
nested invocation returns. -/
theorem aggregate_world_follow (fetch : σ → Item AV → Except GoError (Page AV) × σ)
    (req : Item AV → Call AV) (n : Nat) (w : World σ AV) (lastKey : Item AV) (p : Page AV)
    (h1 : (fetch w.api lastKey).1 = .ok p) (h2 : 0 < mapLen p.LastEvaluatedKey) :
    (aggregate fetch req (n + 1) w lastKey).2
      = (aggregate fetch req n
          { api := (fetch w.api lastKey).2, calls := w.calls ++ [req lastKey] }
          p.LastEvaluatedKey).2 := by
  simp only [aggregate, h1, h2, if_true]
  generalize aggregate fetch req n
    { api := (fetch w.api lastKey).2, calls := w.calls ++ [req lastKey] }
    p.LastEvaluatedKey = res
  obtain ⟨o, w2⟩ := res
  cases o with
  | none => rfl
  | some x =>
    obtain ⟨a, ee⟩ := x
    cases ee <;> rfl

/-- After answered pages whose last token is non-empty, the request for that
token is sent. -/
theorem aggregate_follows_token (fetch : σ → Item AV → Except GoError (Page AV) × σ)
    (req : Item AV → Call AV) :
    ∀ (pre : List (Page AV)) (p : Page AV) (w : World σ AV) (lastKey : Item AV) (fuel : Nat),
      Answers fetch w.api lastKey (pre ++ [p]) → 0 < mapLen p.LastEvaluatedKey →
      pre.length + 2 ≤ fuel →
      ∃ extra, (aggregate fetch req fuel w lastKey).2.calls
        = w.calls ++ (startKeys lastKey (pre ++ [p])).map req
            ++ req p.LastEvaluatedKey :: extra := by
  intro pre
  induction pre with
  | nil =>
    intro p w lastKey fuel h h2 hf
    obtain ⟨n, rfl⟩ : ∃ n, fuel = n + 2 := ⟨fuel - 2, by omega⟩
    have h1 : (fetch w.api lastKey).1 = .ok p := h
    rw [aggregate_world_follow fetch req (n + 1) w lastKey p h1 h2]
    obtain ⟨extra, hx⟩ := aggregate_first_call fetch req n
      { api := (fetch w.api lastKey).2, calls := w.calls ++ [req lastKey] } p.LastEvaluatedKey
    exact ⟨extra, by simpa [startKeys] using hx⟩
  | cons q rest ih =>
    intro p w lastKey fuel h h2 hf
    obtain ⟨n, rfl⟩ : ∃ n, fuel = n + 1 := ⟨fuel - 1, by simp at hf; omega⟩
    cases hr : rest ++ [p] with
    | nil => simp at hr
    | cons x xs =>
      have h' : Answers fetch w.api lastKey (q :: x :: xs) := by
        simpa [hr] using h
      obtain ⟨h1, hq, h3⟩ := h'
      rw [aggregate_world_follow fetch req n w lastKey q h1 hq]
      obtain ⟨extra, hx⟩ := ih p
        { api := (fetch w.api lastKey).2, calls := w.calls ++ [req lastKey] }
        q.LastEvaluatedKey n (by rw [hr]; exact h3) h2 (by simp at hf; omega)
      refine ⟨extra, ?_⟩
      rw [hx]
      simp [startKeys, hr]

/-- The last of the served pages carries no token. -/
theorem serves_last (fetch : σ → Item AV → Except GoError (Page AV) × σ) :
    ∀ (pre : List (Page AV)) (p : Page AV) (s : σ) (lastKey : Item AV),
      Serves fetch s lastKey (pre ++ [p]) → mapLen p.LastEvaluatedKey = 0 := by
  intro pre
  induction pre with
  | nil => intro p s lastKey h; exact h.2
  | cons q rest ih =>
    intro p s lastKey h
    cases hr : rest ++ [p] with
    | nil => simp at hr
    | cons x xs =>
      have h' : Serves fetch s lastKey (q :: x :: xs) := by
        simpa [hr] using h
      exact ih p _ _ (by rw [hr]; exact h'.2.2)

/-- The request after the one that fetched page `p` starts at the token of `p`. -/
theorem startKeys_after (req : Item AV → Call AV) :
    ∀ (pre : List (Page AV)) (p q : Page AV) (post : List (Page AV)) (lastKey : Item AV),
      ((startKeys lastKey (pre ++ p :: q :: post)).map req)[pre.length + 1]?
        = some (req p.LastEvaluatedKey) := by
  intro pre
  induction pre with
  | nil => intro p q post lastKey; simp [startKeys]
  | cons x rest ih =>
    intro p q post lastKey
    simpa [startKeys] using ih p q post x.LastEvaluatedKey

/-- The result, the final collaborator state and the start keys requested
depend neither on the log nor on how a request is logged. -/
theorem aggregate_keys (fetch : σ → Item AV → Except GoError (Page AV) × σ) :
    ∀ (fuel : Nat) (s : σ) (lastKey : Item AV),
      ∃ (res : Option (Ret AV)) (s1 : σ) (keys : List (Item AV)),
        ∀ (req : Item AV → Call AV) (calls : List (Call AV)),
          aggregate fetch req fuel { api := s, calls := calls } lastKey
            = (res, { api := s1, calls := calls ++ keys.map req }) := by
  intro fuel
  induction fuel with
  | zero => intro s lastKey; exact ⟨none, s, [], by intro req calls; simp [aggregate]⟩
  | succ n ih =>
    intro s lastKey
    cases h1 : (fetch s lastKey).1 with
    | error err =>
      exact ⟨some ([], some err), (fetch s lastKey).2, [lastKey], by
        intro req calls; simp [aggregate, h1]⟩
    | ok p =>
      by_cases h2 : mapLen p.LastEvaluatedKey > 0
      · obtain ⟨res, s1, keys, hk⟩ := ih (fetch s lastKey).2 p.LastEvaluatedKey
        refine ⟨(match res with
            | none => none
            | some (a, ee) => if ee.isSome then some ([], none) else some (p.Items ++ a, none)),
          s1, lastKey :: keys, ?_⟩
        intro req calls
        simp only [aggregate, h1, h2, if_true, hk]
        cases res with
        | none => simp
        | some x =>
          obtain ⟨a, ee⟩ := x
          cases ee <;> simp
      · exact ⟨some (p.Items, none), (fetch s lastKey).2, [lastKey], by
          intro req calls; simp [aggregate, h1, h2]⟩

/-- A call that finds `db` set returns it and changes nothing. -/
theorem NewClient_of_db_set {D H Cfg Api : Type} (sdk : Sdk D H Cfg Api) (g : Globals Api H)
    (c : Nat) (hc : g.db = some c) (table : String) (opt : Options D H) :
    NewClient sdk g table opt = (Outcome.ret (some c), g) := by
  simp [NewClient, hc]

/-- Once `db` is set, every further call returns it and changes nothing. -/
theorem newClients_of_db_set {D H Cfg Api : Type} (sdk : Sdk D H Cfg Api) (g : Globals Api H)
    (c : Nat) (hc : g.db = some c) :
    ∀ calls : List (String × Options D H),
      newClients sdk g calls
        = { outcomes := List.replicate calls.length (Outcome.ret (some c)), final := g } := by
  intro calls
  induction calls with
  | nil => rfl
  | cons x rest ih =>
    obtain ⟨table, opt⟩ := x
    simp [newClients, NewClient_of_db_set sdk g c hc, ih, List.replicate_succ]

/-- A call that finds `db` nil and whose configuration does not resolve panics;
it leaves `db` nil, allocates nothing and has run the resolution. -/
theorem NewClient_of_config_error {D H Cfg Api : Type} (sdk : Sdk D H Cfg Api)
    (g : Globals Api H) (hg : g.db = none) (table : String) (opt : Options D H)
    (err : GoError) (he : sdk.LoadDefaultConfig opt.Config = .error err) :
    NewClient sdk g table opt
      = (Outcome.panicked err, { g with loads := g.loads ++ [opt.Config] }) := by
  simp [NewClient, initDb, hg, he]

/-- A call that finds `db` nil and whose configuration resolves allocates the
client for its own table, stores the pointer in `db` and returns it. -/
theorem NewClient_of_config_ok {D H Cfg Api : Type} (sdk : Sdk D H Cfg Api)
    (g : Globals Api H) (hg : g.db = none) (table : String) (opt : Options D H)
    (cfg : Cfg) (hk : sdk.LoadDefaultConfig opt.Config = .ok cfg) :
    NewClient sdk g table opt
      = (Outcome.ret (some g.heap.length),
          { db := some g.heap.length
            heap := g.heap ++ [{ table := table, db := sdk.NewFromConfig cfg opt.DB }]
            loads := g.loads ++ [opt.Config] }) := by
  simp [NewClient, initDb, hg, hk]

/-- While `db` is nil, calls whose configuration does not resolve all panic,
each after running the resolution, and the calls after them start from a state
that differs from the first only in the log of resolutions. -/
theorem newClients_failed_prefix {D H Cfg Api : Type} (sdk : Sdk D H Cfg Api) :
    ∀ (failed : List (String × Options D H)) (g : Globals Api H), g.db = none →
      (∀ c ∈ failed, ∃ err, sdk.LoadDefaultConfig c.2.Config = .error err) →
      ∃ outs : List (Outcome (Option Nat)),
        outs.length = failed.length
        ∧ (∀ o ∈ outs, ∃ err, o = Outcome.panicked err)
        ∧ ∀ tail : List (String × Options D H),
            newClients sdk g (failed ++ tail)
              = { outcomes := outs ++ (newClients sdk
                    { g with loads := g.loads ++ failed.map (fun c => c.2.Config) }
                    tail).outcomes
                  final := (newClients sdk
                    { g with loads := g.loads ++ failed.map (fun c => c.2.Config) }
                    tail).final } := by
  intro failed
  induction failed with
  | nil =>
    intro g _ _
    exact ⟨[], rfl, by simp, by intro tail; simp⟩
  | cons x rest ih =>
    intro g hg hfail
    obtain ⟨table, opt⟩ := x
    obtain ⟨err, he⟩ := hfail (table, opt) (by simp)
    obtain ⟨outs, hl, hp, hrun⟩ := ih { g with loads := g.loads ++ [opt.Config] } hg
      (fun c hc => hfail c (by simp [hc]))
    refine ⟨Outcome.panicked err :: outs, by simp [hl], ?_, ?_⟩
    · intro o ho
      rcases List.mem_cons.mp ho with h | h
      · exact ⟨err, h⟩
      · exact hp o h
    · intro tail
      have hstep := hrun tail
      simp only [List.cons_append, newClients,
        NewClient_of_config_error sdk g hg table opt err he, List.append_eq]
      rw [hstep]
      simp [List.append_assoc]

/-! ## Pagination -/

/-- C1 (pagination completeness).  For either read (`Query` or `Scan`), every
expression and every collaborator that serves the read across the pages
`pages` (at least one page, non-empty tokens on all but the last, none on the
last, no error): with fuel for at least as many invocations as there are pages
the read returns the records of all pages in page order with a nil error, and
the calls it made are exactly one request per page, the first without start key
and each next one starting at the token of the page before. -/
theorem Query_Scan_pagination_complete (r : DocumentClient (DynamoDBApi σ AV)) (op : ReadOp)
    (e : Expression AV) (w : World σ AV) (pages : List (Page AV)) (fuel : Nat)
    (h : Serves (r.fetch e op) w.api none pages) (hf : pages.length ≤ fuel) :
    ∃ s, r.read op fuel w e
        = (some (allItems pages, none),
            { api := s, calls := w.calls ++ (startKeys none pages).map (r.request e op) })
      ∧ ((startKeys none pages).map (r.request e op)).length = pages.length := by
  obtain ⟨s, hs⟩ := aggregate_serves (r.fetch e op) (r.request e op) pages w none fuel h hf
  exact ⟨s, by rw [read_eq_aggregate, hs], by simp [startKeys_length]⟩

/-- C3 (zero-record page continuation).  For either read and any start key:
when the collaborator serves the pages `pre`, then a page with no record and
the non-empty token `tok`, then the pages `post`, the read does not stop at the
empty page: it returns the records of `pre` followed by those of `post` with a
nil error, after one request per page, and the request that follows the one
answered by the empty page starts at `tok`. -/
theorem query_scan_zero_record_page_continues (r : DocumentClient (DynamoDBApi σ AV))
    (op : ReadOp) (e : Expression AV) (w : World σ AV) (lastKey : Item AV)
    (pre post : List (Page AV)) (tok : Item AV) (fuel : Nat)
    (htok : 0 < mapLen tok)
    (h : Serves (r.fetch e op) w.api lastKey
      (pre ++ { Items := [], LastEvaluatedKey := tok } :: post))
    (hf : pre.length + 1 + post.length ≤ fuel) :
    ∃ s, r.readAt op fuel w e lastKey
        = (some (allItems pre ++ allItems post, none),
            { api := s,
              calls := w.calls ++ (startKeys lastKey
                (pre ++ { Items := [], LastEvaluatedKey := tok } :: post)).map (r.request e op) })
      ∧ ((startKeys lastKey
            (pre ++ { Items := [], LastEvaluatedKey := tok } :: post)).map
              (r.request e op))[pre.length + 1]?
          = some (r.request e op tok) := by
  cases post with
  | nil =>
    have h0 := serves_last (r.fetch e op) pre _ _ _ h
    simp only at h0
    omega
  | cons q post =>
    obtain ⟨s, hs⟩ := aggregate_serves (r.fetch e op) (r.request e op) _ w lastKey fuel h
      (by simp at hf ⊢; omega)
    refine ⟨s, ?_, startKeys_after (r.request e op) pre
      { Items := [], LastEvaluatedKey := tok } q post lastKey⟩
    rw [readAt_eq_aggregate, hs]
    simp [allItems_append, allItems_cons]

/-- C4 (a token is followed only when non-empty).  For either read and any
start key, let the collaborator answer with the pages `pre` and then with the
page `p`.  If the token of `p` is nil or has no key-field, the read sends no
request after the one answered by `p` and returns the records of `pre` and `p`
with a nil error.  If the token of `p` has a key-field, the request starting at
that token is sent next. -/
theorem query_scan_token_followed_iff_nonempty (r : DocumentClient (DynamoDBApi σ AV))
    (op : ReadOp) (e : Expression AV) (w : World σ AV) (lastKey : Item AV)
    (pre : List (Page AV)) (p : Page AV)
    (h : Answers (r.fetch e op) w.api lastKey (pre ++ [p])) :
    ((p.LastEvaluatedKey = none ∨ p.LastEvaluatedKey = some []) →
      ∀ fuel, pre.length + 1 ≤ fuel →
        ∃ s, r.readAt op fuel w e lastKey
            = (some (allItems (pre ++ [p]), none),
                { api := s,
                  calls := w.calls ++ (startKeys lastKey (pre ++ [p])).map (r.request e op) })
          ∧ ((startKeys lastKey (pre ++ [p])).map (r.request e op)).length = pre.length + 1)
    ∧ (0 < mapLen p.LastEvaluatedKey →
      ∀ fuel, pre.length + 2 ≤ fuel →
        ∃ extra, (r.readAt op fuel w e lastKey).2.calls
          = w.calls ++ (startKeys lastKey (pre ++ [p])).map (r.request e op)
              ++ r.request e op p.LastEvaluatedKey :: extra) := by
  constructor
  · intro h0 fuel hf
    have hz : mapLen p.LastEvaluatedKey = 0 := by
      rcases h0 with h0 | h0 <;> simp [h0, mapLen]
    obtain ⟨s, hs⟩ := aggregate_serves (r.fetch e op) (r.request e op) (pre ++ [p]) w lastKey
      fuel (serves_of_answers (r.fetch e op) pre p w.api lastKey h hz) (by simpa using hf)
    exact ⟨s, by rw [readAt_eq_aggregate, hs], by simp [startKeys_length]⟩
  · intro hpos fuel hf
    obtain ⟨extra, hx⟩ := aggregate_follows_token (r.fetch e op) (r.request e op) pre p w
      lastKey fuel h hpos hf
    exact ⟨extra, by rw [readAt_eq_aggregate, hx]⟩

/-- C5 (request errors are propagated unchanged).  For either read: when the
collaborator fails the first request (the one without start key) with `E`, the
read returns no record together with exactly `E`, and that request is the only
call it made. -/
theorem Query_Scan_first_request_error_propagated (r : DocumentClient (DynamoDBApi σ AV))
    (op : ReadOp) (e : Expression AV) (w : World σ AV) (E : GoError) (fuel : Nat)
    (h : (r.fetch e op w.api none).1 = .error E) :
    r.read op (fuel + 1) w e
      = (some ([], some E),
          { api := (r.fetch e op w.api none).2, calls := w.calls ++ [r.request e op none] }) := by
  rw [read_eq_aggregate]
  simp [aggregate, h]

/-- C10 (Query and Scan are the same aggregation).  When the collaborator's
`Query` and `Scan` give the same answer (page or error, and successor state)
for the same start key, then for every fuel `Query` and `Scan` return the same
records and error and leave the collaborator in the same state, and they sent
their requests for the same sequence of start keys; a query request carries the
key condition of the expression, and without it is the scan request for the
same start key. -/
theorem Query_Scan_same_aggregation (r : DocumentClient (DynamoDBApi σ AV))
    (e : Expression AV) (fuel : Nat) (w : World σ AV)
    (h : ∀ s k, r.queryFetch e s k = r.scanFetch e s k) :
    ∃ keys : List (Item AV),
      (r.Query fuel w e).1 = (r.Scan fuel w e).1
      ∧ (r.Query fuel w e).2.api = (r.Scan fuel w e).2.api
      ∧ (r.Query fuel w e).2.calls
          = w.calls ++ keys.map (fun k => Call.Query (r.queryInput e k))
      ∧ (r.Scan fuel w e).2.calls
          = w.calls ++ keys.map (fun k => Call.Scan (r.scanInput e k))
      ∧ ∀ k, (r.queryInput e k).ExclusiveStartKey = k
          ∧ (r.scanInput e k).ExclusiveStartKey = k
          ∧ (r.queryInput e k).KeyConditionExpression = e.KeyCondition
          ∧ (r.queryInput e k).dropKeyCondition = r.scanInput e k := by
  have hfetch : r.scanFetch e = r.queryFetch e := by
    funext s k
    exact (h s k).symm
  obtain ⟨res, s1, keys, hk⟩ := aggregate_keys (r.queryFetch e) fuel w.api none
  have hq := hk (fun k => Call.Query (r.queryInput e k)) w.calls
  have hs := hk (fun k => Call.Scan (r.scanInput e k)) w.calls
  refine ⟨keys, ?_, ?_, ?_, ?_, ?_⟩
  · simp only [DocumentClient.Query, DocumentClient.Scan, query_eq_aggregate,
      scan_eq_aggregate, hfetch]
    rw [hq, hs]
  · simp only [DocumentClient.Query, DocumentClient.Scan, query_eq_aggregate,
      scan_eq_aggregate, hfetch]
    rw [hq, hs]
  · simp only [DocumentClient.Query, query_eq_aggregate]
    rw [hq]
  · simp only [DocumentClient.Scan, scan_eq_aggregate, hfetch]
    rw [hs]
  · intro k
    exact ⟨rfl, rfl, rfl, rfl⟩

/-- C2, evaluated.  When the first page is served with a token and the request
for the second page fails, `Query` and `Scan` return no record and a nil error;
when two pages are served with tokens and the request for the third page
fails, they return the records of the first page and a nil error.  In both
cases every request, the failing one included, was sent. -/
theorem Query_Scan_later_page_error_returns_nil_error :
    (widgets secondPageFails).Query 2 world0 someExpr
        = (some ([], none),
            { api := 2,
              calls := [Call.Query ((widgets secondPageFails).queryInput someExpr none),
                Call.Query ((widgets secondPageFails).queryInput someExpr (some [("id", 10)]))] })
    ∧ (widgets secondPageFails).Scan 2 world0 someExpr
        = (some ([], none),
            { api := 2,
              calls := [Call.Scan ((widgets secondPageFails).scanInput someExpr none),
                Call.Scan ((widgets secondPageFails).scanInput someExpr (some [("id", 10)]))] })
    ∧ ((widgets thirdPageFails).Query 3 world0 someExpr).1 = some ([some [("id", 10)]], none)
    ∧ ((widgets thirdPageFails).Scan 3 world0 someExpr).1 = some ([some [("id", 10)]], none)
    ∧ ((widgets thirdPageFails).Query 3 world0 someExpr).2.calls.length = 3
    ∧ ((widgets thirdPageFails).Scan 3 world0 someExpr).2.calls.length = 3 := by
  exact ⟨rfl, rfl, rfl, rfl, rfl, rfl⟩

/-! ## Single-item operations -/

/-- C6 (invalid target).  For every key and every target whose kind is not
`Ptr` (the untyped nil, of kind `Invalid`, included), `Get` returns the error
"target is not a pointer" and leaves the world as it was: no call is logged,
the collaborator state and the memory are unchanged. -/
theorem Get_target_not_pointer {V : Type} (codec : AttributeValueCodec AV V)
    (r : DocumentClient (DynamoDBApi σ AV)) (w : World σ AV) (mem : Nat → V)
    (key : Item AV) (t : Target) (h : t.kind ≠ Kind.Ptr) :
    r.Get codec w mem key t = (some (errorsNew "target is not a pointer"), w, mem) := by
  simp [DocumentClient.Get, h]

/-- C7 (not found).  For every key and every pointer target: when `GetItem`
succeeds with a nil item, `Get` returns the error "item not found", the only
call made is the one `GetItem` request for that key on the client's table (in
particular `UnmarshalMap` is not called), and the memory, hence the target, is
unchanged. -/
theorem Get_item_not_found {V : Type} (codec : AttributeValueCodec AV V)
    (r : DocumentClient (DynamoDBApi σ AV)) (w : World σ AV) (mem : Nat → V)
    (key : Item AV) (t : Target) (h : t.kind = Kind.Ptr)
    (hg : (r.db.GetItem w.api { TableName := r.table, Key := key }).1 = .ok { Item := none }) :
    r.Get codec w mem key t
      = (some (errorsNew "item not found"),
          { api := (r.db.GetItem w.api { TableName := r.table, Key := key }).2,
            calls := w.calls ++ [Call.GetItem { TableName := r.table, Key := key }] },
          mem) := by
  simp [DocumentClient.Get, h, hg]

/-- C9 (delete).  For every key, `Delete` makes exactly one call, the
`DeleteItem` request for that key on the client's table, and returns the
collaborator's error (nil when it reports success).  Hence, when the
collaborator reports success for the request both times, as it does for a key
that is absent, two `Delete` calls in a row both return nil. -/
theorem Delete_one_request_passes_result (r : DocumentClient (DynamoDBApi σ AV))
    (w : World σ AV) (key : Item AV) :
    r.Delete w key
        = (match (r.db.DeleteItem w.api { TableName := r.table, Key := key }).1 with
            | .error err => some err
            | .ok _ => none,
           { api := (r.db.DeleteItem w.api { TableName := r.table, Key := key }).2,
             calls := w.calls ++ [Call.DeleteItem { TableName := r.table, Key := key }] })
    ∧ ((r.db.DeleteItem w.api { TableName := r.table, Key := key }).1 = .ok {} →
        (r.db.DeleteItem (r.db.DeleteItem w.api { TableName := r.table, Key := key }).2
          { TableName := r.table, Key := key }).1 = .ok {} →
        (r.Delete w key).1 = none ∧ (r.Delete (r.Delete w key).2 key).1 = none
          ∧ (r.Delete (r.Delete w key).2 key).2.calls
              = w.calls ++ [Call.DeleteItem { TableName := r.table, Key := key },
                  Call.DeleteItem { TableName := r.table, Key := key }]) := by
  constructor
  · simp only [DocumentClient.Delete]
    cases (r.db.DeleteItem w.api { TableName := r.table, Key := key }).1 <;> rfl
  · intro h1 h2
    simp [DocumentClient.Delete, h1, h2]

/-! ## The shared client -/

/-- C8, the claim as stated, at a concrete input.  The first call asks for
table "Widgets" and its configuration does not resolve, so it panics with `db`
still nil; the second call, for table "Gadgets", resolves its own configuration
and the client it creates and returns has table "Gadgets".  Configuration
resolution ran on the second call too, and the client does not have the table
of the first call. -/
theorem NewClient_after_panic_resolves_again :
    (newClients natSdk Globals.start
        [("Widgets", { DB := 5, Config := 0 }), ("Gadgets", { DB := 6, Config := 7 })]).outcomes
      = [Outcome.panicked (errorsNew "no region"), Outcome.ret (some 0)]
    ∧ (newClients natSdk Globals.start
        [("Widgets", { DB := 5, Config := 0 }), ("Gadgets", { DB := 6, Config := 7 })]).final.loads
      = [0, 7]
    ∧ (newClients natSdk Globals.start
        [("Widgets", { DB := 5, Config := 0 }), ("Gadgets", { DB := 6, Config := 7 })]).final.loads
      ≠ [0]
    ∧ (newClients natSdk Globals.start
        [("Widgets", { DB := 5, Config := 0 }), ("Gadgets", { DB := 6, Config := 7 })]).final.db
      = some 0
    ∧ ((newClients natSdk Globals.start
        [("Widgets", { DB := 5, Config := 0 }),
          ("Gadgets", { DB := 6, Config := 7 })]).final.heap.map (fun c => c.table))
      = ["Gadgets"]
    ∧ ((newClients natSdk Globals.start
        [("Widgets", { DB := 5, Config := 0 }),
          ("Gadgets", { DB := 6, Config := 7 })]).final.heap.map (fun c => c.table))
      ≠ ["Widgets"] := by
  refine ⟨rfl, rfl, ?_, rfl, rfl, ?_⟩ <;> decide

/-- C8, amended (singleton reuse from the first call that returns).  Take any
sequence of `NewClient` calls made from program start: first the calls
`failed`, whose configuration does not resolve, then a call with `table` and
`opt` whose configuration resolves, then the calls `rest` with any tables and
options.  Every call of `failed` panics.  Configuration resolution ran once for
each call up to and including the first call that returns, and for no call of
`rest`.  That call and every call of `rest` return the same pointer, `db` holds
it, and the one client ever allocated has the table of that call.  With
`failed` empty this is the first call of the sequence. -/
theorem NewClient_reuse_after_first_return {D H Cfg Api : Type} (sdk : Sdk D H Cfg Api)
    (failed : List (String × Options D H)) (table : String) (opt : Options D H) (cfg : Cfg)
    (rest : List (String × Options D H))
    (hfail : ∀ c ∈ failed, ∃ err, sdk.LoadDefaultConfig c.2.Config = .error err)
    (hok : sdk.LoadDefaultConfig opt.Config = .ok cfg) :
    (newClients sdk Globals.start (failed ++ (table, opt) :: rest)).final
        = { db := some 0
            heap := [{ table := table, db := sdk.NewFromConfig cfg opt.DB }]
            loads := failed.map (fun c => c.2.Config) ++ [opt.Config] }
    ∧ (newClients sdk Globals.start (failed ++ (table, opt) :: rest)).outcomes.length
        = failed.length + 1 + rest.length
    ∧ (∀ o ∈ (newClients sdk Globals.start
          (failed ++ (table, opt) :: rest)).outcomes.take failed.length,
        ∃ err, o = Outcome.panicked err)
    ∧ (newClients sdk Globals.start (failed ++ (table, opt) :: rest)).outcomes.drop failed.length
        = List.replicate (rest.length + 1) (Outcome.ret (some 0)) := by
  obtain ⟨outs, hl, hp, hrun⟩ := newClients_failed_prefix sdk failed Globals.start rfl hfail
  have hn := NewClient_of_config_ok sdk
    ({ (Globals.start : Globals Api H) with
        loads := (Globals.start : Globals Api H).loads ++ failed.map (fun c => c.2.Config) })
    rfl table opt cfg hok
  have htail : newClients sdk
      ({ (Globals.start : Globals Api H) with
          loads := (Globals.start : Globals Api H).loads ++ failed.map (fun c => c.2.Config) })
      ((table, opt) :: rest)
      = { outcomes := List.replicate (rest.length + 1) (Outcome.ret (some 0))
          final :=
            { db := some 0
              heap := [{ table := table, db := sdk.NewFromConfig cfg opt.DB }]
              loads := failed.map (fun c => c.2.Config) ++ [opt.Config] } } := by
    simp only [newClients, hn]
    rw [newClients_of_db_set sdk _ 0 (by simp [Globals.start]) rest]
    simp [Globals.start, List.replicate_succ]
  rw [hrun ((table, opt) :: rest), htail]
  refine ⟨rfl, ?_, ?_, ?_⟩
  · simp [hl]; omega
  · intro o ho
    rw [← hl, List.take_left] at ho
    exact hp o ho
  · rw [← hl, List.drop_left]

/-! ## The statements at concrete inputs -/

theorem Query_Scan_pagination_complete_witness :
    Serves ((widgets threePages).fetch someExpr ReadOp.scan) world0.api none
        [pageA, pageB, pageC]
    ∧ [pageA, pageB, pageC].length ≤ 3
    ∧ ∃ s, (widgets threePages).read ReadOp.scan 3 world0 someExpr
        = (some (allItems [pageA, pageB, pageC], none),
            { api := s,
              calls := world0.calls ++ (startKeys none [pageA, pageB, pageC]).map
                ((widgets threePages).request someExpr ReadOp.scan) })
      ∧ ((startKeys none [pageA, pageB, pageC]).map
          ((widgets threePages).request someExpr ReadOp.scan)).length
            = [pageA, pageB, pageC].length :=
  have h : Serves ((widgets threePages).fetch someExpr ReadOp.scan) world0.api none
      [pageA, pageB, pageC] := ⟨rfl, by decide, rfl, by decide, rfl, rfl⟩
  ⟨h, by decide,
    Query_Scan_pagination_complete (widgets threePages) ReadOp.scan someExpr world0
      [pageA, pageB, pageC] 3 h (by decide)⟩

theorem query_scan_zero_record_page_continues_witness :
    0 < mapLen pageB.LastEvaluatedKey
    ∧ Serves ((widgets threePages).fetch someExpr ReadOp.query) world0.api none
        ([pageA] ++ { Items := [], LastEvaluatedKey := pageB.LastEvaluatedKey } :: [pageC])
    ∧ ∃ s, (widgets threePages).readAt ReadOp.query 3 world0 someExpr none
        = (some (allItems [pageA] ++ allItems [pageC], none),
            { api := s,
              calls := world0.calls ++ (startKeys none
                ([pageA] ++ { Items := [], LastEvaluatedKey := pageB.LastEvaluatedKey }
                  :: [pageC])).map ((widgets threePages).request someExpr ReadOp.query) })
      ∧ ((startKeys none
            ([pageA] ++ { Items := [], LastEvaluatedKey := pageB.LastEvaluatedKey }
              :: [pageC])).map
              ((widgets threePages).request someExpr ReadOp.query))[[pageA].length + 1]?
          = some ((widgets threePages).request someExpr ReadOp.query pageB.LastEvaluatedKey) :=
  have h : Serves ((widgets threePages).fetch someExpr ReadOp.query) world0.api none
      ([pageA] ++ { Items := [], LastEvaluatedKey := pageB.LastEvaluatedKey } :: [pageC]) :=
    ⟨rfl, by decide, rfl, by decide, rfl, rfl⟩
  ⟨by decide, h,
    query_scan_zero_record_page_continues (widgets threePages) ReadOp.query someExpr world0
      none [pageA] [pageC] pageB.LastEvaluatedKey 3 (by decide) h (by decide)⟩

theorem query_scan_token_followed_iff_nonempty_witness :
    Answers ((widgets threePages).fetch someExpr ReadOp.query) world0.api none
        ([pageA, pageB] ++ [pageC])
    ∧ Answers ((widgets threePages).fetch someExpr ReadOp.query) world0.api none
        ([pageA] ++ [pageB])
    ∧ (∃ s, (widgets threePages).readAt ReadOp.query 3 world0 someExpr none
        = (some (allItems ([pageA, pageB] ++ [pageC]), none),
            { api := s,
              calls := world0.calls ++ (startKeys none ([pageA, pageB] ++ [pageC])).map
                ((widgets threePages).request someExpr ReadOp.query) })
      ∧ ((startKeys none ([pageA, pageB] ++ [pageC])).map
          ((widgets threePages).request someExpr ReadOp.query)).length
            = [pageA, pageB].length + 1)
    ∧ ∃ extra, ((widgets threePages).readAt ReadOp.query 3 world0 someExpr none).2.calls
        = world0.calls ++ (startKeys none ([pageA] ++ [pageB])).map
            ((widgets threePages).request someExpr ReadOp.query)
          ++ (widgets threePages).request someExpr ReadOp.query pageB.LastEvaluatedKey
            :: extra :=
  have h3 : Answers ((widgets threePages).fetch someExpr ReadOp.query) world0.api none
      ([pageA, pageB] ++ [pageC]) := ⟨rfl, by decide, rfl, by decide, rfl⟩
  have h2 : Answers ((widgets threePages).fetch someExpr ReadOp.query) world0.api none
      ([pageA] ++ [pageB]) := ⟨rfl, by decide, rfl⟩
  ⟨h3, h2,
    (query_scan_token_followed_iff_nonempty (widgets threePages) ReadOp.query someExpr world0
      none [pageA, pageB] pageC h3).1 (Or.inl rfl) 3 (by decide),
    (query_scan_token_followed_iff_nonempty (widgets threePages) ReadOp.query someExpr world0
      none [pageA] pageB h2).2 (by decide) 3 (by decide)⟩

theorem Query_Scan_first_request_error_propagated_witness :
    ((widgets firstPageFails).fetch someExpr ReadOp.query world0.api none).1
        = .error (errorsNew "ResourceNotFoundException")
    ∧ (widgets firstPageFails).read ReadOp.query (0 + 1) world0 someExpr
        = (some ([], some (errorsNew "ResourceNotFoundException")),
            { api := ((widgets firstPageFails).fetch someExpr ReadOp.query world0.api none).2,
              calls := world0.calls
                ++ [(widgets firstPageFails).request someExpr ReadOp.query none] }) :=
  ⟨rfl,
    Query_Scan_first_request_error_propagated (widgets firstPageFails) ReadOp.query someExpr
      world0 (errorsNew "ResourceNotFoundException") 0 rfl⟩

/-- A scripted collaborator answers `Query` and `Scan` alike. -/
theorem widgets_fetch_same (script : List (Item Nat × Except GoError (Page Nat)))
    (e : Expression Nat) (s : Nat) (k : Item Nat) :
    (widgets script).queryFetch e s k = (widgets script).scanFetch e s k := by
  simp only [DocumentClient.queryFetch, DocumentClient.scanFetch, widgets, scriptedApi,
    DocumentClient.queryInput, DocumentClient.scanInput]
  cases script.lookup k with
  | none => rfl
  | some x => cases x <;> rfl

theorem Query_Scan_same_aggregation_witness :
    (∀ s k, (widgets threePages).queryFetch someExpr s k
        = (widgets threePages).scanFetch someExpr s k)
    ∧ ∃ keys : List (Item Nat),
      ((widgets threePages).Query 3 world0 someExpr).1
          = ((widgets threePages).Scan 3 world0 someExpr).1
      ∧ ((widgets threePages).Query 3 world0 someExpr).2.api
          = ((widgets threePages).Scan 3 world0 someExpr).2.api
      ∧ ((widgets threePages).Query 3 world0 someExpr).2.calls
          = world0.calls
            ++ keys.map (fun k => Call.Query ((widgets threePages).queryInput someExpr k))
      ∧ ((widgets threePages).Scan 3 world0 someExpr).2.calls
          = world0.calls
            ++ keys.map (fun k => Call.Scan ((widgets threePages).scanInput someExpr k))
      ∧ ∀ k, ((widgets threePages).queryInput someExpr k).ExclusiveStartKey = k
          ∧ ((widgets threePages).scanInput someExpr k).ExclusiveStartKey = k
          ∧ ((widgets threePages).queryInput someExpr k).KeyConditionExpression
              = someExpr.KeyCondition
          ∧ ((widgets threePages).queryInput someExpr k).dropKeyCondition
              = (widgets threePages).scanInput someExpr k :=
  ⟨widgets_fetch_same threePages someExpr,
    Query_Scan_same_aggregation (widgets threePages) someExpr 3 world0
      (widgets_fetch_same threePages someExpr)⟩

theorem Get_target_not_pointer_witness :
    ({ kind := Kind.Struct, cell := none } : Target).kind ≠ Kind.Ptr
    ∧ (widgets []).Get natCodec world0 (fun _ => 0) (some [("id", 1)])
          { kind := Kind.Struct, cell := none }
        = (some (errorsNew "target is not a pointer"), world0, fun _ => 0) :=
  ⟨by decide,
    Get_target_not_pointer natCodec (widgets []) world0 (fun _ => 0) (some [("id", 1)])
      { kind := Kind.Struct, cell := none } (by decide)⟩

theorem Get_item_not_found_witness :
    ({ kind := Kind.Ptr, cell := some 0 } : Target).kind = Kind.Ptr
    ∧ ((widgets []).db.GetItem world0.api
        { TableName := (widgets []).table, Key := some [("id", 1)] }).1 = .ok { Item := none }
    ∧ (widgets []).Get natCodec world0 (fun _ => 0) (some [("id", 1)])
          { kind := Kind.Ptr, cell := some 0 }
        = (some (errorsNew "item not found"),
            { api := ((widgets []).db.GetItem world0.api
                { TableName := (widgets []).table, Key := some [("id", 1)] }).2,
              calls := world0.calls
                ++ [Call.GetItem { TableName := (widgets []).table, Key := some [("id", 1)] }] },
            fun _ => 0) :=
  ⟨rfl, rfl,
    Get_item_not_found natCodec (widgets []) world0 (fun _ => 0) (some [("id", 1)])
      { kind := Kind.Ptr, cell := some 0 } rfl rfl⟩

theorem Delete_one_request_passes_result_witness :
    ((widgets []).Delete world0 (some [("id", 1)])).1 = none
    ∧ ((widgets []).Delete ((widgets []).Delete world0 (some [("id", 1)])).2
        (some [("id", 1)])).1 = none
    ∧ ((widgets []).Delete ((widgets []).Delete world0 (some [("id", 1)])).2
        (some [("id", 1)])).2.calls
      = world0.calls ++ [Call.DeleteItem { TableName := "Widgets", Key := some [("id", 1)] },
          Call.DeleteItem { TableName := "Widgets", Key := some [("id", 1)] }] :=
  (Delete_one_request_passes_result (widgets []) world0 (some [("id", 1)])).2 rfl rfl

theorem NewClient_reuse_after_first_return_witness :
    (∀ c ∈ [(("Widgets", { DB := 5, Config := 0 }) : String × Options Nat Nat)],
        ∃ err, natSdk.LoadDefaultConfig c.2.Config = .error err)
    ∧ natSdk.LoadDefaultConfig ({ DB := 6, Config := 7 } : Options Nat Nat).Config = .ok 7
    ∧ (newClients natSdk Globals.start
          ([("Widgets", { DB := 5, Config := 0 })] ++ ("Gadgets", { DB := 6, Config := 7 })
            :: [("Widgets", { DB := 5, Config := 9 })])).final
        = { db := some 0
            heap := [{ table := "Gadgets", db := natSdk.NewFromConfig 7 6 }]
            loads := [("Widgets", ({ DB := 5, Config := 0 } : Options Nat Nat))].map
              (fun c => c.2.Config) ++ [7] }
    ∧ (newClients natSdk Globals.start
          ([("Widgets", { DB := 5, Config := 0 })] ++ ("Gadgets", { DB := 6, Config := 7 })
            :: [("Widgets", { DB := 5, Config := 9 })])).outcomes.length
        = 1 + 1 + 1
    ∧ (∀ o ∈ (newClients natSdk Globals.start
          ([("Widgets", { DB := 5, Config := 0 })] ++ ("Gadgets", { DB := 6, Config := 7 })
            :: [("Widgets", { DB := 5, Config := 9 })])).outcomes.take 1,
        ∃ err, o = Outcome.panicked err)
    ∧ (newClients natSdk Globals.start
          ([("Widgets", { DB := 5, Config := 0 })] ++ ("Gadgets", { DB := 6, Config := 7 })
            :: [("Widgets", { DB := 5, Config := 9 })])).outcomes.drop 1
        = List.replicate (1 + 1) (Outcome.ret (some 0)) :=
  have hfail : ∀ c ∈ [(("Widgets", { DB := 5, Config := 0 }) : String × Options Nat Nat)],
      ∃ err, natSdk.LoadDefaultConfig c.2.Config = .error err := by
    intro c hc
    rw [List.mem_singleton] at hc
    subst hc
    exact ⟨errorsNew "no region", rfl⟩
  ⟨hfail, rfl,
    NewClient_reuse_after_first_return natSdk [("Widgets", { DB := 5, Config := 0 })]
      "Gadgets" { DB := 6, Config := 7 } 7 [("Widgets", { DB := 5, Config := 9 })] hfail rfl⟩

end DynamoDocumentClient
